import Mathlib

/-!
A shallow embedding of src/mm.c: an explicit-free-list memory allocator with
boundary tags, LIFO free-list insertion, best-fit search and an optimized
realloc.

The heap is modelled exactly as the C code sees it: an array of 4-byte words,
`mem : Int → Int`, mapping a word index (the C `word_t *` pointer counted in
words) to the 32-bit word stored there.  `NULL` is the address 0.  `word_t`
values are mathematical integers; every store goes through the two's
complement 32-bit truncations `i32n` / `i32` (the C casts to `word_t`), and
`size_t` arithmetic wraps modulo `2 ^ 64` (`M64`).  The C globals
`heap_start`, `bt_heap_start`, `bt_heap_last` and the state of the sbrk arena
live in the state record `MM`.
-/

namespace MMc

/-- The `size_t` modulus: size arithmetic in the C code wraps modulo `2^64`. -/
def M64 : Nat := 18446744073709551616

/-- Two's-complement 32-bit truncation of a natural number: the C cast
`(word_t)size` of a `size_t` value. -/
def i32n (n : Nat) : Int :=
  if n % 4294967296 < 2147483648 then ((n % 4294967296 : Nat) : Int)
  else ((n % 4294967296 : Nat) : Int) - 4294967296

/-- Two's-complement 32-bit truncation of an integer: the C cast to `word_t`
of a pointer difference. -/
def i32 (x : Int) : Int := (x + 2147483648) % 4294967296 - 2147483648

/-- Reading a `word_t` value in a `size_t` context: sign-extend to 64 bits
and reinterpret as unsigned. -/
def toUSize (x : Int) : Nat := (x % (18446744073709551616 : Int)).toNat

/-- Wrapping `size_t` subtraction `a - b`, for values already reduced
below `2^64`. -/
def subU (a b : Nat) : Nat := (a + M64 - b) % M64

/-- ALIGNMENT comes from mm.h (not under src/), but its value is forced by
mm_init itself: the two permanent list-anchor blocks are built with header at
word +3 / footer at word +6, resp. header +7 / footer +10, so each spans 4
words = 16 bytes, and their size is the literal `ALIGNMENT`.  Hence
ALIGNMENT = 16, matching the literal 16-byte thresholds in place/realloc. -/
def ALIGNMENT : Nat := 16

/-- bt_flags: the block is free. -/
def FREE : Nat := 0

/-- bt_flags: the block is in use. -/
def USED : Nat := 1

/-- The allocator state: the heap word array, the C globals of mm.c, and the
break/limit of the (modelled) sbrk arena, all in word units. -/
structure MM where
  mem : Int → Int
  brk : Int
  limit : Int
  heap_start : Int
  bt_heap_start : Int
  bt_heap_last : Int

/-- Pointwise update of the word array. -/
def upd (f : Int → Int) (a v : Int) : Int → Int := fun x => if x = a then v else f x

/-- Store one word at word index `a`. -/
def poke (s : MM) (a v : Int) : MM := { s with mem := upd s.mem a v }

/-- bt_size: `*bt & ~USED`, i.e. the tag word with its low bit cleared
(in two's complement, `x & ~1 = x - x % 2`). -/
def bt_size (s : MM) (bt : Int) : Int := s.mem bt - s.mem bt % 2

/-- bt_used: `*bt & USED` is nonzero. -/
def bt_used (s : MM) (bt : Int) : Prop := s.mem bt % 2 = 1

/-- bt_free: `!(*bt & USED)`. -/
def bt_free (s : MM) (bt : Int) : Prop := s.mem bt % 2 = 0

instance (s : MM) (bt : Int) : Decidable (bt_used s bt) :=
  inferInstanceAs (Decidable (_ = _))

instance (s : MM) (bt : Int) : Decidable (bt_free s bt) :=
  inferInstanceAs (Decidable (_ = _))

/-- bt_footer: `(void *)bt + bt_size(bt) - sizeof(word_t)`, in words. -/
def bt_footer (s : MM) (bt : Int) : Int := bt + bt_size s bt / 4 - 1

/-- bt_fromptr: `(word_t *)ptr - 1`. -/
def bt_fromptr (ptr : Int) : Int := ptr - 1

/-- bt_make: `*bt = ((word_t)size) | flags`; `flags` is 0 (FREE) or 1 (USED),
so the bitwise or only sets the low bit. -/
def bt_make (s : MM) (bt : Int) (size : Nat) (flags : Nat) : MM :=
  poke s bt (i32n (size ||| flags))

/-- bt_payload: the payload starts one word after the header. -/
def bt_payload (bt : Int) : Int := bt + 1

/-- bt_next: NULL for a size-0 tag, else `bt + bt_size(bt)/4`. -/
def bt_next (s : MM) (bt : Int) : Int :=
  if bt_size s bt = 0 then 0 else bt + bt_size s bt / 4

/-- bt_prev: NULL for the first block after the prologue, else step back over
the previous block's footer, which sits in the word just below `bt`. -/
def bt_prev (s : MM) (bt : Int) : Int :=
  if bt_payload bt = bt_fromptr s.heap_start then 0
  else bt - bt_size s (bt - 1) / 4

/-- lifo_get_next: the next-link word of a free block. -/
def lifo_get_next (s : MM) (bt : Int) : Int := s.mem (bt + 1)

/-- lifo_get_prev: the prev-link word of a free block. -/
def lifo_get_prev (s : MM) (bt : Int) : Int := s.mem (bt + 2)

/-- lifo_put_next. -/
def lifo_put_next (s : MM) (bt p : Int) : MM := poke s (bt + 1) p

/-- lifo_put_prev. -/
def lifo_put_prev (s : MM) (bt p : Int) : MM := poke s (bt + 2) p

/-- lifo_create_next: store the word distance from `current_bt` to
`next_bt` (a pointer difference cast to `word_t`). -/
def lifo_create_next (s : MM) (current_bt next_bt : Int) : MM :=
  lifo_put_next s current_bt (i32 (next_bt - current_bt))

/-- lifo_create_prev. -/
def lifo_create_prev (s : MM) (current_bt prev_bt : Int) : MM :=
  lifo_put_prev s current_bt (i32 (prev_bt - current_bt))

/-- lifo_next: NULL for a zero distance, else resolve the relative offset. -/
def lifo_next (s : MM) (bt : Int) : Int :=
  if lifo_get_next s bt = 0 then 0 else bt + lifo_get_next s bt

/-- lifo_prev. -/
def lifo_prev (s : MM) (bt : Int) : Int :=
  if lifo_get_prev s bt = 0 then 0 else bt + lifo_get_prev s bt

/-- lifo_connect: link two blocks to each other in list order. -/
def lifo_connect (s : MM) (current_bt next_bt : Int) : MM :=
  lifo_create_prev (lifo_create_next s current_bt next_bt) next_bt current_bt

/-- lifo_add: insert a block right after the list-anchor block
`bt_heap_start` (LIFO discipline). -/
def lifo_add (s : MM) (current_bt : Int) : MM :=
  let next_bt := lifo_next s s.bt_heap_start
  let s1 := lifo_create_next s current_bt next_bt
  let s2 := lifo_create_prev s1 current_bt s.bt_heap_start
  let s3 := lifo_create_next s2 s.bt_heap_start current_bt
  lifo_create_prev s3 next_bt current_bt

/-- coalesce (mm.c lines 184-234): merge a free block with its free
address-neighbors, in the four cases chosen by the neighbors' in-use bits,
treating the topmost block (`bt_heap_last`) as having an in-use successor.
In case 4 the C code first adds the two `word_t` sizes in 32-bit arithmetic
before widening to `size_t`, hence the inner `i32`. -/
def coalesce (s : MM) (ptr : Int) : Int × MM :=
  let current_bt := bt_fromptr ptr
  let prev_bt := bt_prev s current_bt
  let next_bt := bt_next s current_bt
  let size0 := toUSize (bt_size s current_bt)
  if bt_used s prev_bt ∧ (s.bt_heap_last = current_bt ∨ bt_used s next_bt) then
    (ptr, lifo_add s current_bt)
  else if bt_used s prev_bt ∧ (¬s.bt_heap_last = current_bt ∧ bt_free s next_bt) then
    let size := (size0 + toUSize (bt_size s next_bt)) % M64
    let s1 := lifo_connect s (lifo_prev s next_bt) (lifo_next s next_bt)
    let s2 := bt_make s1 current_bt size FREE
    let s3 := bt_make s2 (bt_footer s2 current_bt) size FREE
    let s4 := lifo_add s3 current_bt
    let s5 := if s4.bt_heap_last = next_bt then { s4 with bt_heap_last := current_bt } else s4
    (ptr, s5)
  else if bt_free s prev_bt ∧ (s.bt_heap_last = current_bt ∨ bt_used s next_bt) then
    let size := (size0 + toUSize (bt_size s prev_bt)) % M64
    let s1 := lifo_connect s (lifo_prev s prev_bt) (lifo_next s prev_bt)
    let s2 := bt_make s1 (bt_footer s1 current_bt) size FREE
    let s3 := bt_make s2 prev_bt size FREE
    let s4 := lifo_add s3 prev_bt
    let s5 := if s4.bt_heap_last = current_bt then { s4 with bt_heap_last := prev_bt } else s4
    (bt_payload prev_bt, s5)
  else
    let size := (size0 + toUSize (i32 (bt_size s prev_bt + bt_size s next_bt))) % M64
    let s1 := lifo_connect s (lifo_prev s prev_bt) (lifo_next s prev_bt)
    let s2 := lifo_connect s1 (lifo_prev s1 next_bt) (lifo_next s1 next_bt)
    let s3 := bt_make s2 prev_bt size FREE
    let s4 := bt_make s3 (bt_footer s3 next_bt) size FREE
    let s5 := lifo_add s4 prev_bt
    let s6 := if s5.bt_heap_last = next_bt then { s5 with bt_heap_last := prev_bt } else s5
    (bt_payload prev_bt, s6)

/-- Modelled from the spec: the external arena-growth primitive `mem_sbrk`
(memlib, not under src/).  It extends the arena contiguously by the given
number of bytes and returns the old break, or returns `(void *)-1` and leaves
the arena untouched when the host cannot supply more memory; per §6 it either
succeeds immediately or fails immediately. -/
def mem_sbrk (s : MM) (bytes : Nat) : Int × MM :=
  if s.brk + ((bytes / 4 : Nat) : Int) ≤ s.limit then
    (s.brk, { s with brk := s.brk + ((bytes / 4 : Nat) : Int) })
  else (-1, s)

/-- mm_init (mm.c lines 236-269): carve the 12-word prologue holding the two
permanent in-use anchor blocks of the free list, then set the globals. -/
def mm_init (s : MM) : Int × MM :=
  let r := mem_sbrk s (12 * 4)
  if r.1 = -1 then (-1, r.2)
  else
    let hs := r.1
    let s1 := r.2
    let s2 := bt_make s1 (hs + 3) ALIGNMENT USED
    let s3 := bt_make s2 (hs + 6) ALIGNMENT USED
    let s4 := lifo_create_next s3 (hs + 3) (hs + 7)
    let s5 := poke s4 (hs + 5) 0
    let s6 := bt_make s5 (hs + 7) ALIGNMENT USED
    let s7 := bt_make s6 (hs + 10) ALIGNMENT USED
    let s8 := poke s7 (hs + 8) 0
    let s9 := lifo_create_prev s8 (hs + 7) (hs + 3)
    (0, { s9 with heap_start := hs + 4,
                  bt_heap_start := bt_fromptr (hs + 4),
                  bt_heap_last := bt_fromptr (hs + 4) + 4 })

/-- The loop of the best-fit find_fit (mm.c lines 284-301).  `fuel` bounds
the traversal; termination of the C loop is a well-formedness property of the
free list, and when the fuel runs out the current candidate is returned,
which coincides with the C result whenever the fuel covers the whole list. -/
def find_fit_loop (s : MM) (reqsz : Nat) : Nat → Int → Int → Nat → Int
  | 0, _, result, _ => result
  | fuel + 1, current_block, result, result_size =>
    if current_block = 0 then result
    else
      if bt_free s current_block ∧ reqsz ≤ toUSize (bt_size s current_block) then
        if result = 0 then
          find_fit_loop s reqsz fuel (lifo_next s current_block) current_block
            (toUSize (bt_size s current_block))
        else if toUSize (bt_size s current_block) < result_size then
          find_fit_loop s reqsz fuel (lifo_next s current_block) current_block
            (toUSize (bt_size s current_block))
        else
          find_fit_loop s reqsz fuel (lifo_next s current_block) result result_size
      else
        find_fit_loop s reqsz fuel (lifo_next s current_block) result result_size

/-- find_fit: scan the whole free list from the anchor's first successor,
keeping the smallest sufficiently large free block seen so far. -/
def find_fit (s : MM) (reqsz : Nat) (fuel : Nat) : Int :=
  find_fit_loop s reqsz fuel (lifo_next s s.bt_heap_start) 0 0

/-- place (mm.c lines 305-323): put an allocation of `asize` bytes into the
free block at `bt`, splitting it when the leftover reaches the minimum block
size 16, otherwise consuming it whole. -/
def place (s : MM) (bt : Int) (asize : Nat) : MM :=
  let csize := toUSize (bt_size s bt)
  if 16 ≤ subU csize asize then
    let s1 := bt_make s bt asize USED
    let s2 := bt_make s1 (bt_footer s1 bt) asize USED
    let bt_new := bt_next s2 bt
    let s3 := lifo_connect s2 (lifo_prev s2 bt) bt_new
    let s4 := lifo_connect s3 bt_new (lifo_next s3 bt)
    let s5 := bt_make s4 bt_new (subU csize asize) FREE
    let s6 := bt_make s5 (bt_footer s5 bt_new) (subU csize asize) FREE
    if bt = s6.bt_heap_last then { s6 with bt_heap_last := bt_new } else s6
  else
    let s1 := lifo_connect s (lifo_prev s bt) (lifo_next s bt)
    let s2 := bt_make s1 bt csize USED
    bt_make s2 (bt_footer s2 bt) csize USED

/-- The alignment rounding in extend_heap:
`(size + ALIGNMENT - 1) & -ALIGNMENT` in `size_t` arithmetic. -/
def roundAlign (size : Nat) : Nat :=
  let t := (size % M64 + (ALIGNMENT - 1)) % M64
  t - t % ALIGNMENT

/-- extend_heap (mm.c lines 325-344): grow the arena, format the new space as
one free block, make it the topmost block and coalesce it. -/
def extend_heap (s : MM) (size : Nat) : Int × MM :=
  let round_size := roundAlign size
  let r := mem_sbrk s round_size
  if r.1 = -1 then (0, r.2)
  else
    let ptr := r.1
    let bt := bt_fromptr ptr
    let s1 := bt_make r.2 bt round_size FREE
    let s2 := bt_make s1 (bt_footer s1 bt) round_size FREE
    let s3 := { s2 with bt_heap_last := bt }
    coalesce s3 ptr

/-- The block-size computation inlined in malloc (mm.c lines 357-362):
16 bytes when the request fits the smallest payload, else
`ALIGNMENT * ((size + 8 + ALIGNMENT - 1) / ALIGNMENT)` in `size_t`
arithmetic. -/
def malloc_asize (size : Nat) : Nat :=
  if size ≤ 8 then 16
  else ALIGNMENT * (((size % M64 + 8) % M64 + (ALIGNMENT - 1)) % M64 / ALIGNMENT) % M64

/-- malloc (mm.c lines 346-377). -/
def malloc (s : MM) (size : Nat) (fuel : Nat) : Int × MM :=
  if size = 0 then (0, s)
  else
    let asize := malloc_asize size
    let bt := find_fit s asize fuel
    if ¬bt = 0 then
      let s1 := place s bt asize
      (bt_payload bt, s1)
    else
      let extendsize := asize
      let r := extend_heap s extendsize
      if r.1 = 0 then (0, r.2)
      else
        let bt2 := bt_fromptr r.1
        let s2 := place r.2 bt2 asize
        (bt_payload bt2, s2)

/-- free (mm.c lines 381-390): no-op on NULL, else rewrite the tags as FREE
and coalesce. -/
def free (s : MM) (ptr : Int) : MM :=
  if ptr = 0 then s
  else
    let bt := bt_fromptr ptr
    let size := toUSize (bt_size s bt)
    let s1 := bt_make s bt size FREE
    let s2 := bt_make s1 (bt_footer s1 bt) size FREE
    (coalesce s2 ptr).2

/-- The block-size computation inlined in realloc (mm.c lines 405-410); the
same expression as in malloc, transcribed from its own site. -/
def realloc_asize (size : Nat) : Nat :=
  if size ≤ 8 then 16
  else ALIGNMENT * (((size % M64 + 8) % M64 + (ALIGNMENT - 1)) % M64 / ALIGNMENT) % M64

/-- Modelled libc memcpy on the word-grained arena, for word-multiple
lengths; mm.c only ever copies `old_size - 8` bytes, a multiple of 8. -/
def copyWords (dst src : Int) : Nat → MM → MM
  | 0, s => s
  | k + 1, s => copyWords (dst + 1) (src + 1) k (poke s dst (s.mem src))

/-- memcpy(dst, src, n) for the word-aligned, word-multiple calls mm.c
makes. -/
def memcpyW (s : MM) (dst src : Int) (n : Nat) : MM :=
  copyWords dst src (n / 4) s

/-- realloc (mm.c lines 394-471). -/
def realloc (s : MM) (old_ptr : Int) (size : Nat) (fuel : Nat) : Int × MM :=
  if size = 0 then (0, free s old_ptr)
  else if old_ptr = 0 then malloc s size fuel
  else
    let asize := realloc_asize size
    let current_bt := bt_fromptr old_ptr
    let old_size := toUSize (bt_size s current_bt)
    let nn : Int × Nat :=
      if ¬current_bt = s.bt_heap_last then
        let nb := bt_next s current_bt
        if bt_free s nb then (nb, (old_size + toUSize (bt_size s nb)) % M64)
        else (0, 0)
      else (0, 0)
    let next_bt := nn.1
    let new_size := nn.2
    if asize = old_size then (old_ptr, s)
    else if asize < old_size then
      let csize := toUSize (bt_size s current_bt)
      if 16 ≤ subU csize asize then
        let s1 := bt_make s current_bt asize USED
        let s2 := bt_make s1 (bt_footer s1 current_bt) asize USED
        let bt_new := bt_next s2 current_bt
        let s3 := bt_make s2 bt_new (subU csize asize) FREE
        let s4 := bt_make s3 (bt_footer s3 bt_new) (subU csize asize) FREE
        let s5 := if current_bt = s4.bt_heap_last then { s4 with bt_heap_last := bt_new } else s4
        (old_ptr, lifo_add s5 bt_new)
      else (old_ptr, s)
    else if ¬next_bt = 0 ∧ asize ≤ new_size then
      if 16 ≤ subU new_size asize then
        let s1 := bt_make s current_bt asize USED
        let bt_new := bt_next s1 current_bt
        let s2 := lifo_connect s1 (lifo_prev s1 next_bt) bt_new
        let s3 := lifo_connect s2 bt_new (lifo_next s2 next_bt)
        let s4 := bt_make s3 (bt_footer s3 current_bt) asize USED
        let s5 := bt_make s4 bt_new (subU new_size asize) FREE
        let s6 := bt_make s5 (bt_footer s5 bt_new) (subU new_size asize) FREE
        let s7 := if next_bt = s6.bt_heap_last then { s6 with bt_heap_last := bt_new } else s6
        (old_ptr, s7)
      else
        let s1 := lifo_connect s (lifo_prev s next_bt) (lifo_next s next_bt)
        let s2 := bt_make s1 current_bt new_size USED
        let s3 := bt_make s2 (bt_footer s2 current_bt) new_size USED
        let s4 := if next_bt = s3.bt_heap_last then { s3 with bt_heap_last := current_bt } else s3
        (old_ptr, s4)
    else
      let r := malloc s size fuel
      if r.1 = 0 then (0, r.2)
      else
        let s2 := memcpyW r.2 r.1 old_ptr (subU old_size 8)
        (r.1, free s2 old_ptr)

/-- Zero `k` consecutive words starting at `p`. -/
def zeroWords (p : Int) : Nat → MM → MM
  | 0, s => s
  | k + 1, s => zeroWords (p + 1) k (poke s p 0)

/-- Modelled libc `memset(p, 0, n)` on the word-grained arena, for a
word-aligned `p`: zero the `n / 4` full words, then clear the low
`8 * (n % 4)` bits (the first bytes, in little-endian order) of the last,
partially covered word. -/
def memset0 (s : MM) (p : Int) (n : Nat) : MM :=
  let s1 := zeroWords p (n / 4) s
  if n % 4 = 0 then s1
  else poke s1 (p + (n / 4 : Nat)) (s1.mem (p + (n / 4 : Nat)) - s1.mem (p + (n / 4 : Nat)) % (2 ^ (8 * (n % 4)) : Nat))

/-- calloc (mm.c lines 475-481): the byte count `nmemb * size` is computed in
`size_t` arithmetic, i.e. wrapping modulo `2^64`, with no overflow check. -/
def calloc (s : MM) (nmemb size : Nat) (fuel : Nat) : Int × MM :=
  let bytes := nmemb * size % M64
  let r := malloc s bytes fuel
  if ¬r.1 = 0 then (r.1, memset0 r.2 r.1 bytes)
  else (r.1, r.2)

/-! ### Concrete heap states used as witnesses

A small machine: the arena starts at word 1 and can grow to 100000 words.
The runs below follow the sequence mm_init; p = malloc(40); q = malloc(8);
z = malloc(8); free(q); realloc(p, 8).  After mm_init the list-anchor blocks
sit at words 4 and 8; the three allocations give payloads 13, 25, 29 with
block headers at words 12 (size 48), 24 (size 16) and 28 (size 16). -/

/-- An initial machine state: empty arena starting at word 1. -/
def st0 : MM := ⟨fun _ => 0, 1, 100000, 0, 0, 0⟩

/-- The heap right after mm_init. -/
def stInit : MM := (mm_init st0).2

/-- p = malloc(40): payload 13, block words 12-23, size 48. -/
def runP : Int × MM := malloc stInit 40 50

/-- q = malloc(8): payload 25, block words 24-27, size 16. -/
def runQ : Int × MM := malloc runP.2 8 50

/-- z = malloc(8): payload 29, block words 28-31, size 16. -/
def runZ : Int × MM := malloc runQ.2 8 50

/-- free(q): block 24 becomes free; both its address-neighbors are in use. -/
def stFreeQ : MM := free runZ.2 runQ.1

/-- realloc(p, 8): shrink p's block in place from 48 to 16 bytes, leaving a
32-byte remainder at word 16. -/
def runShrink : Int × MM := realloc stFreeQ runP.1 8 50

/-! ### Helper lemmas -/

theorem upd_self (f : Int → Int) (a v : Int) : upd f a v a = v := if_pos rfl

theorem upd_other (f : Int → Int) {x a : Int} (v : Int) (h : ¬x = a) :
    upd f a v x = f x := if_neg h

theorem lor_one_of_even {n : Nat} (h : n % 2 = 0) : n ||| 1 = n + 1 := by
  apply Nat.eq_of_testBit_eq
  intro i
  rw [Nat.testBit_lor]
  cases i with
  | zero =>
    simp only [Nat.testBit_zero]
    have h1 : (n + 1) % 2 = 1 := by omega
    simp [h, h1]
  | succ j =>
    rw [Nat.testBit_succ, Nat.testBit_succ, Nat.testBit_succ]
    have h1 : (1 : Nat) / 2 = 0 := rfl
    have h2 : (n + 1) / 2 = n / 2 := by omega
    rw [h1, h2]
    simp

theorem lor_zero_nat (n : Nat) : n ||| 0 = n := Nat.or_zero n

theorem i32n_small {n : Nat} (h : n < 2147483648) : i32n n = (n : Int) := by
  unfold i32n
  rw [Nat.mod_eq_of_lt (by omega)]
  rw [if_pos h]

theorem toUSize_natCast {n : Nat} (h : n < M64) : toUSize (n : Int) = n := by
  unfold toUSize
  unfold M64 at h
  rw [Int.emod_eq_of_lt (by positivity) (by exact_mod_cast h)]
  exact Int.toNat_ofNat n

/-- Zeroed words stay zero under later zeroWords steps to the right. -/
theorem zeroWords_frame (k : Nat) : ∀ (p x : Int) (s : MM), x < p →
    (zeroWords p k s).mem x = s.mem x := by
  induction k with
  | zero => intro p x s _; rfl
  | succ m ih =>
    intro p x s hx
    show (zeroWords (p + 1) m (poke s p 0)).mem x = s.mem x
    rw [ih (p + 1) x (poke s p 0) (by omega)]
    exact upd_other s.mem 0 (by omega)

theorem zeroWords_mem (k : Nat) : ∀ (p : Int) (s : MM) (i : Nat), i < k →
    (zeroWords p k s).mem (p + (i : Int)) = 0 := by
  induction k with
  | zero => intro p s i h; omega
  | succ m ih =>
    intro p s i h
    show (zeroWords (p + 1) m (poke s p 0)).mem (p + (i : Int)) = 0
    rcases Nat.eq_zero_or_pos i with h0 | h0
    · subst h0
      rw [zeroWords_frame m (p + 1) (p + (0 : Nat)) (poke s p 0) (by omega)]
      show upd s.mem p 0 (p + ((0 : Nat) : Int)) = 0
      have h : p + ((0 : Nat) : Int) = p := by omega
      rw [h, upd_self]
    · have hi : p + (i : Int) = (p + 1) + ((i - 1 : Nat) : Int) := by
        omega
      rw [hi, ih (p + 1) (poke s p 0) (i - 1) (by omega)]

/-! ### The free-list chain scanned by find_fit -/

/-- The address chain obtained by following lifo_next from `bt`, stopping at
NULL, cut off after `fuel` steps. -/
def lifo_chain (s : MM) : Nat → Int → List Int
  | 0, _ => []
  | fuel + 1, bt => if bt = 0 then [] else bt :: lifo_chain s fuel (lifo_next s bt)

/-- A block qualifies for a find_fit request: free and large enough. -/
def fits (s : MM) (reqsz : Nat) (b : Int) : Prop :=
  bt_free s b ∧ reqsz ≤ toUSize (bt_size s b)

instance (s : MM) (reqsz : Nat) (b : Int) : Decidable (fits s reqsz b) :=
  inferInstanceAs (Decidable (_ ∧ _))

/-- find_fit's accumulator loop, expressed over the list of scanned
addresses. -/
def ffAux (s : MM) (reqsz : Nat) : List Int → Int → Nat → Int
  | [], r, _ => r
  | b :: t, r, rs =>
    if fits s reqsz b then
      if r = 0 then ffAux s reqsz t b (toUSize (bt_size s b))
      else if toUSize (bt_size s b) < rs then ffAux s reqsz t b (toUSize (bt_size s b))
      else ffAux s reqsz t r rs
    else ffAux s reqsz t r rs

theorem lifo_chain_ne_zero (s : MM) :
    ∀ (fuel : Nat) (bt b : Int), b ∈ lifo_chain s fuel bt → ¬b = 0 := by
  intro fuel
  induction fuel with
  | zero => intro bt b hb; simp [lifo_chain] at hb
  | succ m ih =>
    intro bt b hb
    by_cases h : bt = 0
    · subst h; simp [lifo_chain] at hb
    · unfold lifo_chain at hb
      rw [if_neg h] at hb
      rcases List.mem_cons.mp hb with h1 | h1
      · rw [h1]; exact h
      · exact ih _ _ h1

/-- The fueled loop computes ffAux over the chain, provided the fuel covers
the whole chain (one more unit of fuel discovers nothing new). -/
theorem find_fit_loop_chain (s : MM) (reqsz : Nat) :
    ∀ (fuel : Nat) (current r : Int) (rs : Nat),
      lifo_chain s (fuel + 1) current = lifo_chain s fuel current →
      find_fit_loop s reqsz fuel current r rs =
        ffAux s reqsz (lifo_chain s fuel current) r rs := by
  intro fuel
  induction fuel with
  | zero => intro current r rs _; rfl
  | succ m ih =>
    intro current r rs h
    by_cases hc : current = 0
    · subst hc
      have he : lifo_chain s (m + 1) (0 : Int) = [] := by
        unfold lifo_chain; rw [if_pos rfl]
      rw [he]
      rfl
    · have hcons : ∀ k : Nat, lifo_chain s (k + 1) current =
          current :: lifo_chain s k (lifo_next s current) := by
        intro k
        show (if current = 0 then [] else _) = _
        rw [if_neg hc]
      have hh : lifo_chain s (m + 1) (lifo_next s current) =
          lifo_chain s m (lifo_next s current) := by
        have h' := h
        rw [hcons (m + 1), hcons m] at h'
        exact (List.cons.injEq _ _ _ _ ▸ h').2
      rw [hcons m]
      simp only [find_fit_loop, ffAux, fits]
      rw [if_neg hc]
      split_ifs with hfit hr0 hlt
      · exact ih _ _ _ hh
      · exact ih _ _ _ hh
      · exact ih _ _ _ hh
      · exact ih _ _ _ hh

/-- Behaviour of the accumulator loop over a list of nonzero addresses:
either the accumulator survives and every qualifying element is at least as
large as the held size, or the result splits the list, qualifies, improves
strictly on the accumulator, beats every earlier qualifying element strictly
and every later one weakly. -/
theorem ffAux_spec (s : MM) (reqsz : Nat) :
    ∀ (t : List Int) (r : Int) (rs : Nat), (∀ b ∈ t, ¬b = 0) →
      (ffAux s reqsz t r rs = r ∧
        (∀ b ∈ t, fits s reqsz b → ¬r = 0 ∧ rs ≤ toUSize (bt_size s b))) ∨
      (∃ l1 l2, t = l1 ++ ffAux s reqsz t r rs :: l2 ∧
        fits s reqsz (ffAux s reqsz t r rs) ∧
        (¬r = 0 → toUSize (bt_size s (ffAux s reqsz t r rs)) < rs) ∧
        (∀ b ∈ l1, fits s reqsz b →
          toUSize (bt_size s (ffAux s reqsz t r rs)) < toUSize (bt_size s b)) ∧
        (∀ b ∈ l2, fits s reqsz b →
          toUSize (bt_size s (ffAux s reqsz t r rs)) ≤ toUSize (bt_size s b))) := by
  intro t
  induction t with
  | nil =>
    intro r rs _
    left
    exact ⟨rfl, by simp⟩
  | cons b t' ih =>
    intro r rs h0
    have hb0 : ¬b = 0 := h0 b (List.mem_cons_self b t')
    have h0' : ∀ x ∈ t', ¬x = 0 := fun x hx => h0 x (List.mem_cons_of_mem b hx)
    by_cases hfit : fits s reqsz b
    · by_cases hr : r = 0
      · -- the scan adopts b as first candidate
        have heq : ffAux s reqsz (b :: t') r rs =
            ffAux s reqsz t' b (toUSize (bt_size s b)) := by
          simp only [ffAux]; rw [if_pos hfit, if_pos hr]
        rw [heq]
        rcases ih b (toUSize (bt_size s b)) h0' with ⟨ha1, ha2⟩ |
          ⟨l1, l2, hsp, hf, himp, hl1, hl2⟩
        · right
          rw [ha1]
          exact ⟨[], t', rfl, hfit, fun hc => absurd hr hc,
            fun x hx => absurd hx (List.not_mem_nil x),
            fun x hx hfx => (ha2 x hx hfx).2⟩
        · right
          refine ⟨b :: l1, l2, by rw [List.cons_append, ← hsp], hf,
            fun hc => absurd hr hc, ?_, hl2⟩
          intro x hx hfx
          rcases List.mem_cons.mp hx with h1 | h1
          · rw [h1]; exact himp hb0
          · exact hl1 x h1 hfx
      · by_cases hlt : toUSize (bt_size s b) < rs
        · -- the scan adopts b, improving on the held candidate
          have heq : ffAux s reqsz (b :: t') r rs =
              ffAux s reqsz t' b (toUSize (bt_size s b)) := by
            simp only [ffAux]; rw [if_pos hfit, if_neg hr, if_pos hlt]
          rw [heq]
          rcases ih b (toUSize (bt_size s b)) h0' with ⟨ha1, ha2⟩ |
            ⟨l1, l2, hsp, hf, himp, hl1, hl2⟩
          · right
            rw [ha1]
            exact ⟨[], t', rfl, hfit, fun _ => hlt,
              fun x hx => absurd hx (List.not_mem_nil x),
              fun x hx hfx => (ha2 x hx hfx).2⟩
          · right
            refine ⟨b :: l1, l2, by rw [List.cons_append, ← hsp], hf,
              fun _ => lt_trans (himp hb0) hlt, ?_, hl2⟩
            intro x hx hfx
            rcases List.mem_cons.mp hx with h1 | h1
            · rw [h1]; exact himp hb0
            · exact hl1 x h1 hfx
        · -- b qualifies but does not improve: the held candidate stays
          have hge : rs ≤ toUSize (bt_size s b) := le_of_not_lt hlt
          have heq : ffAux s reqsz (b :: t') r rs = ffAux s reqsz t' r rs := by
            simp only [ffAux]; rw [if_pos hfit, if_neg hr, if_neg hlt]
          rw [heq]
          rcases ih r rs h0' with ⟨ha1, ha2⟩ | ⟨l1, l2, hsp, hf, himp, hl1, hl2⟩
          · left
            refine ⟨ha1, ?_⟩
            intro x hx hfx
            rcases List.mem_cons.mp hx with h1 | h1
            · rw [h1]; exact ⟨hr, hge⟩
            · exact ha2 x h1 hfx
          · right
            refine ⟨b :: l1, l2, by rw [List.cons_append, ← hsp], hf, himp, ?_, hl2⟩
            intro x hx hfx
            rcases List.mem_cons.mp hx with h1 | h1
            · rw [h1]; exact lt_of_lt_of_le (himp hr) hge
            · exact hl1 x h1 hfx
    · -- b does not qualify
      have heq : ffAux s reqsz (b :: t') r rs = ffAux s reqsz t' r rs := by
        simp only [ffAux]; rw [if_neg hfit]
      rw [heq]
      rcases ih r rs h0' with ⟨ha1, ha2⟩ | ⟨l1, l2, hsp, hf, himp, hl1, hl2⟩
      · left
        refine ⟨ha1, ?_⟩
        intro x hx hfx
        rcases List.mem_cons.mp hx with h1 | h1
        · rw [h1] at hfx; exact absurd hfx hfit
        · exact ha2 x h1 hfx
      · right
        refine ⟨b :: l1, l2, by rw [List.cons_append, ← hsp], hf, himp, ?_, hl2⟩
        intro x hx hfx
        rcases List.mem_cons.mp hx with h1 | h1
        · rw [h1] at hfx; exact absurd hfx hfit
        · exact hl1 x h1 hfx


/-! ### State-projection and tag-value helper lemmas -/

theorem bt_make_mem (s : MM) (bt : Int) (size flags : Nat) :
    (bt_make s bt size flags).mem = upd s.mem bt (i32n (size ||| flags)) := rfl

theorem lifo_connect_mem (s : MM) (a b : Int) :
    (lifo_connect s a b).mem =
      upd (upd s.mem (a + 1) (i32 (b - a))) (b + 2) (i32 (a - b)) := rfl

theorem lifo_add_mem (s : MM) (cur : Int) :
    (lifo_add s cur).mem =
      upd (upd (upd (upd s.mem
        (cur + 1) (i32 (lifo_next s s.bt_heap_start - cur)))
        (cur + 2) (i32 (s.bt_heap_start - cur)))
        (s.bt_heap_start + 1) (i32 (cur - s.bt_heap_start)))
        (lifo_next s s.bt_heap_start + 2) (i32 (cur - lifo_next s s.bt_heap_start)) := rfl

theorem i32_small {x : Int} (h1 : -2147483648 ≤ x) (h2 : x < 2147483648) :
    i32 x = x := by
  unfold i32
  omega

theorem tag_used_props {s' : MM} {a : Int} {v : Nat} (hv : v % 2 = 0)
    (hlt : v < 2147483648) (hm : s'.mem a = (v : Int) + 1) :
    toUSize (bt_size s' a) = v ∧ bt_used s' a := by
  refine ⟨?_, ?_⟩
  · unfold bt_size
    rw [hm]
    have h1 : ((v : Int) + 1) % 2 = 1 := by omega
    rw [h1]
    have h2 : (v : Int) + 1 - 1 = ((v : Nat) : Int) := by omega
    rw [h2]
    exact toUSize_natCast (by unfold M64; omega)
  · unfold bt_used
    rw [hm]
    omega

theorem tag_free_props {s' : MM} {a : Int} {v : Nat} (hv : v % 2 = 0)
    (hlt : v < 2147483648) (hm : s'.mem a = (v : Int)) :
    toUSize (bt_size s' a) = v ∧ bt_free s' a := by
  refine ⟨?_, ?_⟩
  · unfold bt_size
    rw [hm]
    have h1 : ((v : Int)) % 2 = 0 := by omega
    rw [h1, sub_zero]
    exact toUSize_natCast (by unfold M64; omega)
  · unfold bt_free
    rw [hm]
    omega

/-- C1: find_fit scans the entire free list starting at the anchor block's
first successor and, among all free blocks whose size is at least the
request, returns the one with the smallest size, the block at the earlier
list position winning when two qualifying blocks have equal size; it returns
NULL when no free block is large enough.  The hypothesis states that the
fuel covers the whole list (one more step discovers nothing new). -/
theorem c1_find_fit_best_fit (s : MM) (reqsz fuel : Nat)
    (h : lifo_chain s (fuel + 1) (lifo_next s s.bt_heap_start) =
         lifo_chain s fuel (lifo_next s s.bt_heap_start)) :
    (find_fit s reqsz fuel = 0 ↔
      ∀ b ∈ lifo_chain s fuel (lifo_next s s.bt_heap_start), ¬fits s reqsz b) ∧
    (¬find_fit s reqsz fuel = 0 →
      fits s reqsz (find_fit s reqsz fuel) ∧
      (∀ b ∈ lifo_chain s fuel (lifo_next s s.bt_heap_start), fits s reqsz b →
        toUSize (bt_size s (find_fit s reqsz fuel)) ≤ toUSize (bt_size s b)) ∧
      (∃ l1 l2, lifo_chain s fuel (lifo_next s s.bt_heap_start) =
          l1 ++ find_fit s reqsz fuel :: l2 ∧
        ∀ b ∈ l1, fits s reqsz b →
          toUSize (bt_size s (find_fit s reqsz fuel)) < toUSize (bt_size s b))) := by
  have hz : ∀ b ∈ lifo_chain s fuel (lifo_next s s.bt_heap_start), ¬b = 0 :=
    fun b hb => lifo_chain_ne_zero s fuel _ b hb
  have heq : find_fit s reqsz fuel =
      ffAux s reqsz (lifo_chain s fuel (lifo_next s s.bt_heap_start)) 0 0 :=
    find_fit_loop_chain s reqsz fuel (lifo_next s s.bt_heap_start) 0 0 h
  rcases ffAux_spec s reqsz (lifo_chain s fuel (lifo_next s s.bt_heap_start)) 0 0 hz with
    ⟨ha1, ha2⟩ | ⟨l1, l2, hsp, hf, _, hl1, hl2⟩
  · rw [heq, ha1]
    refine ⟨⟨fun _ b hb hfb => (ha2 b hb hfb).1 rfl, fun _ => rfl⟩, ?_⟩
    intro hne
    exact absurd rfl hne
  · constructor
    · constructor
      · intro h0 b hb hfb
        rw [heq] at h0
        rw [h0] at hsp
        exact hz 0 (hsp ▸ List.mem_append_right l1 (List.mem_cons_self 0 l2)) rfl
      · intro hnone
        have hmem : ffAux s reqsz (lifo_chain s fuel (lifo_next s s.bt_heap_start)) 0 0 ∈
            l1 ++ ffAux s reqsz (lifo_chain s fuel (lifo_next s s.bt_heap_start)) 0 0 :: l2 :=
          List.mem_append_right _ (List.mem_cons_self _ _)
        rw [← hsp] at hmem
        exact absurd hf (hnone _ hmem)
    · intro _
      rw [heq]
      refine ⟨hf, ?_, l1, l2, hsp, hl1⟩
      intro b hb hfb
      rw [hsp] at hb
      rcases List.mem_append.mp hb with h1 | h1
      · exact le_of_lt (hl1 b h1 hfb)
      · rcases List.mem_cons.mp h1 with h2 | h2
        · rw [h2]
        · exact hl2 b h2 hfb

/-! ### A best-fit scenario: free blocks of sizes 32, 64 and 48

From the initialized heap, allocate six blocks (three of the interesting
sizes separated by 16-byte barrier blocks), then free the 32-, the 64- and
the 48-byte block in that order.  The free list then holds, from the head:
the 48-byte block (header word 44), the 64-byte block (header word 24), the
32-byte block (header word 12), and the permanently in-use tail anchor
(word 8). -/

def runA : Int × MM := malloc stInit 20 50

def runB : Int × MM := malloc runA.2 8 50

def runC : Int × MM := malloc runB.2 50 50

def runD : Int × MM := malloc runC.2 8 50

def runE : Int × MM := malloc runD.2 40 50

def runF : Int × MM := malloc runE.2 8 50

/-- The heap with free blocks of sizes 32 (word 12), 64 (word 24) and 48
(word 44), freed in that order. -/
def stBestFit : MM := free (free (free runF.2 runA.1) runC.1) runE.1

/-- C1 witness: on `stBestFit` with request 48 the scan visits the blocks of
sizes 48, 64, 32 and the in-use anchor, and returns the 48-byte block at
word 44 — not the larger 64 nor the first-freed 32. -/
theorem c1_find_fit_best_fit_witness :
    (lifo_chain stBestFit 11 (lifo_next stBestFit stBestFit.bt_heap_start) =
       lifo_chain stBestFit 10 (lifo_next stBestFit stBestFit.bt_heap_start)) ∧
    find_fit stBestFit 48 10 = 44 ∧
    toUSize (bt_size stBestFit 44) = 48 ∧
    lifo_chain stBestFit 10 (lifo_next stBestFit stBestFit.bt_heap_start) =
      [44, 24, 12, 8] ∧
    ((find_fit stBestFit 48 10 = 0 ↔
      ∀ b ∈ lifo_chain stBestFit 10 (lifo_next stBestFit stBestFit.bt_heap_start),
        ¬fits stBestFit 48 b) ∧
    (¬find_fit stBestFit 48 10 = 0 →
      fits stBestFit 48 (find_fit stBestFit 48 10) ∧
      (∀ b ∈ lifo_chain stBestFit 10 (lifo_next stBestFit stBestFit.bt_heap_start),
        fits stBestFit 48 b →
        toUSize (bt_size stBestFit (find_fit stBestFit 48 10)) ≤
          toUSize (bt_size stBestFit b)) ∧
      (∃ l1 l2, lifo_chain stBestFit 10 (lifo_next stBestFit stBestFit.bt_heap_start) =
          l1 ++ find_fit stBestFit 48 10 :: l2 ∧
        ∀ b ∈ l1, fits stBestFit 48 b →
          toUSize (bt_size stBestFit (find_fit stBestFit 48 10)) <
            toUSize (bt_size stBestFit b)))) :=
  ⟨by decide, by decide, by decide, by decide,
    c1_find_fit_best_fit stBestFit 48 10 (by decide)⟩

/-- C4: `Allocate(0)` returns the null "no allocation" result and leaves the
allocator state unchanged; `Release(NULL)` is a defined no-op that changes no
state; and `Resize(ptr, 0)` behaves exactly as `Release(ptr)` and returns the
null result, for any pointer. -/
theorem c4_zero_size_semantics (s : MM) (ptr : Int) (fuel : Nat) :
    malloc s 0 fuel = (0, s) ∧ free s 0 = s ∧
    realloc s ptr 0 fuel = (0, free s ptr) :=
  ⟨rfl, rfl, rfl⟩

/-- C5 counterexample: the claim "for every nonzero requested size ... the
request plus the fixed 8-byte overhead rounded up to the next multiple of the
alignment unit" fails at the nonzero request 2^64 - 8: the size_t rounding
wraps and both Allocate and Resize compute a needed block size of 0, even
though a rounding up of request + 8 would have to be at least the request. -/
theorem c5_counterexample :
    malloc_asize (18446744073709551616 - 8) = 0 ∧
    realloc_asize (18446744073709551616 - 8) = 0 ∧
    ¬(18446744073709551616 - 8 + 8 ≤ malloc_asize (18446744073709551616 - 8)) := by
  refine ⟨by decide, by decide, by decide⟩

/-- C5 (amended): for every nonzero requested size, Allocate and Resize
compute the needed block size by the same rule: the minimum block size 16
when the request fits the smallest payload (request ≤ 8 bytes), and otherwise
the request plus the fixed 8-byte overhead rounded up to the next multiple of
16 — the computation being carried out in wrapping size_t arithmetic, so the
rounding is exact for every request below 2^64 - 23 and wraps only above. -/
theorem c5_needed_size_rule (size : Nat) (_h : 0 < size) :
    malloc_asize size = realloc_asize size ∧
    (size ≤ 8 → malloc_asize size = 16) ∧
    (8 < size → size < 18446744073709551593 →
      16 ∣ malloc_asize size ∧ size + 8 ≤ malloc_asize size ∧
        malloc_asize size < size + 8 + 16) := by
  refine ⟨rfl, fun h8 => by simp [malloc_asize, h8], fun h8 hlt => ?_⟩
  have h1 : malloc_asize size = 16 * ((size + 23) / 16) := by
    unfold malloc_asize ALIGNMENT M64
    rw [if_neg (by omega)]
    have e1 : size % 18446744073709551616 = size := Nat.mod_eq_of_lt (by omega)
    rw [e1]
    have e2 : (size + 8) % 18446744073709551616 = size + 8 := Nat.mod_eq_of_lt (by omega)
    rw [e2]
    have e3 : (size + 8 + (16 - 1)) % 18446744073709551616 = size + 23 := by omega
    rw [e3]
    exact Nat.mod_eq_of_lt (by omega)
  rw [h1]
  refine ⟨⟨(size + 23) / 16, rfl⟩, by omega, by omega⟩

/-- Unfolding equation for calloc, with the two malloc outcomes exposed. -/
theorem calloc_eq (s : MM) (nmemb size fuel : Nat) :
    calloc s nmemb size fuel =
      if (malloc s (nmemb * size % M64) fuel).1 = 0 then
        malloc s (nmemb * size % M64) fuel
      else
        ((malloc s (nmemb * size % M64) fuel).1,
          memset0 (malloc s (nmemb * size % M64) fuel).2
            (malloc s (nmemb * size % M64) fuel).1 (nmemb * size % M64)) := by
  show (if ¬(malloc s (nmemb * size % M64) fuel).1 = 0 then
          ((malloc s (nmemb * size % M64) fuel).1,
            memset0 (malloc s (nmemb * size % M64) fuel).2
              (malloc s (nmemb * size % M64) fuel).1 (nmemb * size % M64))
        else
          ((malloc s (nmemb * size % M64) fuel).1,
            (malloc s (nmemb * size % M64) fuel).2)) = _
  by_cases h : (malloc s (nmemb * size % M64) fuel).1 = 0
  · rw [if_neg (not_not_intro h), if_pos h]
  · rw [if_pos h, if_neg h]

/-- C5 witness: at request 100 both computations round 100 + 8 up to 112. -/
theorem c5_needed_size_rule_witness :
    0 < 100 ∧
    (malloc_asize 100 = realloc_asize 100 ∧
      (100 ≤ 8 → malloc_asize 100 = 16) ∧
      (8 < 100 → 100 < 18446744073709551593 →
        16 ∣ malloc_asize 100 ∧ 100 + 8 ≤ malloc_asize 100 ∧
          malloc_asize 100 < 100 + 8 + 16)) :=
  ⟨by decide, c5_needed_size_rule 100 (by decide)⟩

/-- C10: whenever the size_t product count * size is zero — in particular
whenever either argument is zero — ZeroAllocate returns the null result,
performs no allocation and no zero-filling, and leaves the state unchanged,
because the zero byte count is delegated to Allocate, which returns null for
size 0 without touching the state. -/
theorem c10_calloc_zero_product (s : MM) (nmemb size fuel : Nat)
    (h : nmemb * size % M64 = 0) :
    calloc s nmemb size fuel = (0, s) ∧
    malloc s (nmemb * size % M64) fuel = (0, s) := by
  have hm : malloc s (nmemb * size % M64) fuel = (0, s) := by rw [h]; rfl
  rw [calloc_eq, hm]
  exact ⟨rfl, rfl⟩

/-- C10 witness: count 0, size 5 on the initialized heap. -/
theorem c10_calloc_zero_product_witness :
    0 * 5 % M64 = 0 ∧ calloc stInit 0 5 50 = (0, stInit) :=
  ⟨by decide, (c10_calloc_zero_product stInit 0 5 50 (by decide)).1⟩

/-- C9: ZeroAllocate(count, size) computes count * size with unchecked
wrapping machine multiplication (modulo 2^64), delegates that byte count to
Allocate, zero-fills the returned region on success (every fully covered word
of the payload becomes 0, and the low bytes of a partially covered final word
are cleared), and returns the null result when the underlying Allocate
fails. -/
theorem c9_calloc_delegates (s : MM) (nmemb size fuel : Nat) :
    (calloc s nmemb size fuel =
      if (malloc s (nmemb * size % M64) fuel).1 = 0 then
        malloc s (nmemb * size % M64) fuel
      else
        ((malloc s (nmemb * size % M64) fuel).1,
          memset0 (malloc s (nmemb * size % M64) fuel).2
            (malloc s (nmemb * size % M64) fuel).1 (nmemb * size % M64))) ∧
    (∀ i : Nat, i < nmemb * size % M64 / 4 →
      (calloc s nmemb size fuel).2.mem ((malloc s (nmemb * size % M64) fuel).1 + (i : Int)) = 0 ∨
        (malloc s (nmemb * size % M64) fuel).1 = 0) ∧
    ((malloc s (nmemb * size % M64) fuel).1 = 0 →
      calloc s nmemb size fuel = (0, (malloc s (nmemb * size % M64) fuel).2)) := by
  refine ⟨calloc_eq s nmemb size fuel, ?_, ?_⟩
  · intro i hi
    by_cases h0 : (malloc s (nmemb * size % M64) fuel).1 = 0
    · exact Or.inr h0
    · left
      rw [calloc_eq, if_neg h0]
      show (memset0 (malloc s (nmemb * size % M64) fuel).2
              (malloc s (nmemb * size % M64) fuel).1 (nmemb * size % M64)).mem _ = 0
      unfold memset0
      by_cases h4 : nmemb * size % M64 % 4 = 0
      · rw [if_pos h4]
        exact zeroWords_mem _ _ _ i hi
      · rw [if_neg h4]
        show upd _ _ _ _ = 0
        rw [upd_other _ _ (by intro heq; omega)]
        exact zeroWords_mem _ _ _ i hi
  · intro h0
    rw [calloc_eq, if_pos h0, ← h0]

/-- C9 witness: count 2, size 6 on the initialized heap: malloc(12) returns
payload 13 and calloc zeroes the three payload words. -/
theorem c9_calloc_delegates_witness :
    (2 * 6 % M64 / 4 = 3) ∧
    (calloc stInit 2 6 50).2.mem ((malloc stInit (2 * 6 % M64) 50).1 + ((1 : Nat) : Int)) = 0 :=
  ⟨by decide,
    ((c9_calloc_delegates stInit 2 6 50).2.1 1 (by decide)).resolve_right (by decide)⟩

set_option maxHeartbeats 3200000 in
/-- C6: place(block, requested_size) on a free block of size csize ≥ asize
splits exactly when the leftover reaches the minimum block size 16: it
shrinks the block to asize and marks it in use with matching header and
footer, formats the leftover as a new free block with its own header (at bn)
and footer (at the old footer position fOld), splices the remainder into the
free list at the list position the block occupied (the block's old list
neighbors lp and ln now link to the remainder), and moves the topmost-block
pointer to the remainder exactly when the block had been topmost; otherwise
it detaches the block from the free list (relinking lp and ln to each other)
and marks the whole span in use at its unchanged full size.  The separation
hypotheses say that the list neighbors' link words lie outside the block's
span, as they do for every well-formed free list. -/
theorem c6_place_spec (s : MM) (bt lp ln bn fOld : Int) (asize csize : Nat)
    (hmem : s.mem bt = (csize : Int))
    (hlp : lp = lifo_prev s bt) (hln : ln = lifo_next s bt)
    (hbn : bn = bt + ((asize / 4 : Nat) : Int))
    (hfOld : fOld = bt + ((csize / 4 : Nat) : Int) - 1)
    (has16 : 16 ≤ asize) (hasal : asize % 16 = 0)
    (hcsal : csize % 16 = 0) (hasle : asize ≤ csize) (hclt : csize < 2147483648)
    (hbt0 : 0 < bt) (hbtB : bt + ((csize / 4 : Nat) : Int) < 1073741824)
    (hlp0 : 0 ≤ lp) (hlpB : lp < 1073741824)
    (hln0 : 0 ≤ ln) (hlnB : ln < 1073741824)
    (hlpln1 : ¬lp = ln + 1) (hlplnE : ¬lp = ln)
    (hlpI : lp + 2 < bt ∨ bt + ((csize / 4 : Nat) : Int) ≤ lp)
    (hlnI : ln + 2 < bt ∨ bt + ((csize / 4 : Nat) : Int) ≤ ln) :
    (16 ≤ csize - asize →
      (place s bt asize).mem bt = (asize : Int) + 1 ∧
      (place s bt asize).mem (bn - 1) = (asize : Int) + 1 ∧
      toUSize (bt_size (place s bt asize) bt) = asize ∧ bt_used (place s bt asize) bt ∧
      (place s bt asize).mem bn = ((csize - asize : Nat) : Int) ∧
      (place s bt asize).mem fOld = ((csize - asize : Nat) : Int) ∧
      toUSize (bt_size (place s bt asize) bn) = csize - asize ∧
        bt_free (place s bt asize) bn ∧
      bt_next (place s bt asize) bt = bn ∧
      bt_footer (place s bt asize) bn = fOld ∧
      lifo_next (place s bt asize) lp = bn ∧
      lifo_prev (place s bt asize) bn = lp ∧
      lifo_next (place s bt asize) bn = ln ∧
      lifo_prev (place s bt asize) ln = bn ∧
      (place s bt asize).bt_heap_last =
        (if bt = s.bt_heap_last then bn else s.bt_heap_last) ∧
      (∀ x : Int, ¬x = bt → ¬x = bn - 1 → ¬x = lp + 1 → ¬x = bn + 2 →
        ¬x = bn + 1 → ¬x = ln + 2 → ¬x = bn → ¬x = fOld →
        (place s bt asize).mem x = s.mem x) ∧
      (place s bt asize).brk = s.brk ∧
      (place s bt asize).bt_heap_start = s.bt_heap_start ∧
      (place s bt asize).heap_start = s.heap_start) ∧
    (csize - asize < 16 →
      lifo_next (place s bt asize) lp = ln ∧
      lifo_prev (place s bt asize) ln = lp ∧
      (place s bt asize).mem bt = (csize : Int) + 1 ∧
      (place s bt asize).mem fOld = (csize : Int) + 1 ∧
      toUSize (bt_size (place s bt asize) bt) = csize ∧ bt_used (place s bt asize) bt ∧
      (place s bt asize).bt_heap_last = s.bt_heap_last ∧
      (∀ x : Int, ¬x = bt → ¬x = fOld → ¬x = lp + 1 → ¬x = ln + 2 →
        (place s bt asize).mem x = s.mem x) ∧
      (place s bt asize).brk = s.brk) := by
  have heven : asize % 2 = 0 := by omega
  have hceven : csize % 2 = 0 := by omega
  have halt : asize < 2147483648 := by omega
  have hcs : toUSize (bt_size s bt) = csize := by
    unfold bt_size
    rw [hmem]
    have h2 : ((csize : Int)) % 2 = 0 := by omega
    rw [h2, sub_zero]
    exact toUSize_natCast (by unfold M64; omega)
  have hsubU : subU csize asize = csize - asize := by unfold subU M64; omega
  have hv1 : i32n (asize ||| USED) = (asize : Int) + 1 := by
    unfold USED
    rw [lor_one_of_even heven, i32n_small (by omega)]
    omega
  have hvc1 : i32n (csize ||| USED) = (csize : Int) + 1 := by
    unfold USED
    rw [lor_one_of_even hceven, i32n_small (by omega)]
    omega
  have hvr : i32n ((csize - asize) ||| FREE) = ((csize - asize : Nat) : Int) := by
    unfold FREE
    rw [lor_zero_nat, i32n_small (by omega)]
  constructor
  · -- split branch
    intro hsplit
    -- all address distinctions and arithmetic side facts, proved by a single
    -- omega call while the context is still free of disequalities
    obtain ⟨d1a, d1b, d1c, d1d, d1e, d1f, d1g,
      d2a, d2b, d2c, d2d, d2e, d2f, d3a,
      d4a, d4b, d4c, d4d, d4e,
      d5a, d5b, d5c, d5d, d6a, d6b, d6c, d7a, d7b,
      hb1a, hb1b, hb2a, hb2b, hb3a, hb3b, hb4a, hb4b,
      hz1, hz2, hz3, hz4, hsum1, hsum2, hsum3, hsum4,
      hNc, hNv, hAv, hFv, hrem_ev, hrem_lt,
      dLp1, dLp2, dLn1, dLn2, dLn3, dLn4⟩ :
        (¬bt = fOld) ∧ (¬bt = bn) ∧ (¬bt = ln + 2) ∧ (¬bt = bn + 1) ∧
        (¬bt = bn + 2) ∧ (¬bt = lp + 1) ∧ (¬bt = bn - 1) ∧
        (¬bn - 1 = fOld) ∧ (¬bn - 1 = bn) ∧ (¬bn - 1 = ln + 2) ∧
        (¬bn - 1 = bn + 1) ∧ (¬bn - 1 = bn + 2) ∧ (¬bn - 1 = lp + 1) ∧
        (¬bn = fOld) ∧
        (¬lp + 1 = fOld) ∧ (¬lp + 1 = bn) ∧ (¬lp + 1 = ln + 2) ∧
        (¬lp + 1 = bn + 1) ∧ (¬lp + 1 = bn + 2) ∧
        (¬bn + 2 = fOld) ∧ (¬bn + 2 = bn) ∧ (¬bn + 2 = ln + 2) ∧
        (¬bn + 2 = bn + 1) ∧
        (¬bn + 1 = fOld) ∧ (¬bn + 1 = bn) ∧ (¬bn + 1 = ln + 2) ∧
        (¬ln + 2 = fOld) ∧ (¬ln + 2 = bn) ∧
        (-2147483648 ≤ bn - lp) ∧ (bn - lp < 2147483648) ∧
        (-2147483648 ≤ lp - bn) ∧ (lp - bn < 2147483648) ∧
        (-2147483648 ≤ ln - bn) ∧ (ln - bn < 2147483648) ∧
        (-2147483648 ≤ bn - ln) ∧ (bn - ln < 2147483648) ∧
        (¬bn - lp = 0) ∧ (¬lp - bn = 0) ∧ (¬ln - bn = 0) ∧ (¬bn - ln = 0) ∧
        (lp + (bn - lp) = bn) ∧ (bn + (lp - bn) = lp) ∧
        (bn + (ln - bn) = ln) ∧ (ln + (bn - ln) = bn) ∧
        (¬(asize : Int) + 1 - ((asize : Int) + 1) % 2 = 0) ∧
        (bt + ((asize : Int) + 1 - ((asize : Int) + 1) % 2) / 4 = bn) ∧
        (bt + ((asize : Int) + 1 - ((asize : Int) + 1) % 2) / 4 - 1 = bn - 1) ∧
        (bn + (((csize - asize : Nat) : Int) -
          ((csize - asize : Nat) : Int) % 2) / 4 - 1 = fOld) ∧
        ((csize - asize) % 2 = 0) ∧ (csize - asize < 2147483648) ∧
        (¬bt + 2 = bn - 1) ∧ (¬bt + 2 = bt) ∧
        (¬bt + 1 = bn + 2) ∧ (¬bt + 1 = lp + 1) ∧ (¬bt + 1 = bn - 1) ∧
        (¬bt + 1 = bt) := by omega
    have hi1 : i32 (bn - lp) = bn - lp := i32_small hb1a hb1b
    have hi2 : i32 (lp - bn) = lp - bn := i32_small hb2a hb2b
    have hi3 : i32 (ln - bn) = ln - bn := i32_small hb3a hb3b
    have hi4 : i32 (bn - ln) = bn - ln := i32_small hb4a hb4b
    have hA : bt_footer (bt_make s bt asize USED) bt = bn - 1 := by
      unfold bt_footer bt_size
      rw [bt_make_mem, upd_self, hv1]
      exact hAv
    have hBn : bt_next (bt_make (bt_make s bt asize USED) (bn - 1) asize USED) bt = bn := by
      unfold bt_next bt_size
      rw [bt_make_mem, bt_make_mem]
      rw [upd_other _ _ d1g, upd_self, hv1]
      rw [if_neg hNc]
      exact hNv
    have hLp : lifo_prev (bt_make (bt_make s bt asize USED) (bn - 1) asize USED) bt = lp := by
      rw [hlp]
      unfold lifo_prev lifo_get_prev
      rw [bt_make_mem, bt_make_mem]
      rw [upd_other _ _ dLp1, upd_other _ _ dLp2]
    have hLn : lifo_next (lifo_connect (bt_make (bt_make s bt asize USED) (bn - 1) asize USED) lp bn) bt = ln := by
      rw [hln]
      unfold lifo_next lifo_get_next
      rw [lifo_connect_mem, bt_make_mem, bt_make_mem]
      rw [upd_other _ _ dLn1, upd_other _ _ dLn2, upd_other _ _ dLn3,
        upd_other _ _ dLn4]
    have hF2 : bt_footer (bt_make (lifo_connect (lifo_connect (bt_make (bt_make s bt asize USED) (bn - 1) asize USED) lp bn) bn ln) bn (csize - asize) FREE) bn = fOld := by
      unfold bt_footer bt_size
      rw [bt_make_mem, upd_self, hvr]
      exact hFv
    have hplace : place s bt asize =
        (if bt = s.bt_heap_last then
          { s with
            mem := upd (upd (upd (upd (upd (upd (upd (upd s.mem
              bt (i32n (asize ||| USED)))
              (bn - 1) (i32n (asize ||| USED)))
              (lp + 1) (i32 (bn - lp)))
              (bn + 2) (i32 (lp - bn)))
              (bn + 1) (i32 (ln - bn)))
              (ln + 2) (i32 (bn - ln)))
              bn (i32n ((csize - asize) ||| FREE)))
              fOld (i32n ((csize - asize) ||| FREE)),
            bt_heap_last := bn }
        else
          { s with
            mem := upd (upd (upd (upd (upd (upd (upd (upd s.mem
              bt (i32n (asize ||| USED)))
              (bn - 1) (i32n (asize ||| USED)))
              (lp + 1) (i32 (bn - lp)))
              (bn + 2) (i32 (lp - bn)))
              (bn + 1) (i32 (ln - bn)))
              (ln + 2) (i32 (bn - ln)))
              bn (i32n ((csize - asize) ||| FREE)))
              fOld (i32n ((csize - asize) ||| FREE)) }) := by
      simp only [place]
      rw [hcs, hsubU, if_pos hsplit, hA, hBn, hLp, hLn, hF2]
      rfl
    have hMem : (place s bt asize).mem =
        upd (upd (upd (upd (upd (upd (upd (upd s.mem
          bt (i32n (asize ||| USED)))
          (bn - 1) (i32n (asize ||| USED)))
          (lp + 1) (i32 (bn - lp)))
          (bn + 2) (i32 (lp - bn)))
          (bn + 1) (i32 (ln - bn)))
          (ln + 2) (i32 (bn - ln)))
          bn (i32n ((csize - asize) ||| FREE)))
          fOld (i32n ((csize - asize) ||| FREE)) := by
      rw [hplace]
      split_ifs <;> rfl
    have hLast : (place s bt asize).bt_heap_last =
        (if bt = s.bt_heap_last then bn else s.bt_heap_last) := by
      rw [hplace]
      split_ifs <;> rfl
    have hBrk : (place s bt asize).brk = s.brk := by
      rw [hplace]; split_ifs <;> rfl
    have hHS : (place s bt asize).bt_heap_start = s.bt_heap_start := by
      rw [hplace]; split_ifs <;> rfl
    have hHS2 : (place s bt asize).heap_start = s.heap_start := by
      rw [hplace]; split_ifs <;> rfl
    clear hplace
    have m1 : (place s bt asize).mem bt = (asize : Int) + 1 := by
      rw [hMem, upd_other _ _ d1a, upd_other _ _ d1b, upd_other _ _ d1c,
        upd_other _ _ d1d, upd_other _ _ d1e, upd_other _ _ d1f,
        upd_other _ _ d1g, upd_self, hv1]
    have m2 : (place s bt asize).mem (bn - 1) = (asize : Int) + 1 := by
      rw [hMem, upd_other _ _ d2a, upd_other _ _ d2b, upd_other _ _ d2c,
        upd_other _ _ d2d, upd_other _ _ d2e, upd_other _ _ d2f, upd_self, hv1]
    have m3 : (place s bt asize).mem bn = ((csize - asize : Nat) : Int) := by
      rw [hMem, upd_other _ _ d3a, upd_self, hvr]
    have m4 : (place s bt asize).mem fOld = ((csize - asize : Nat) : Int) := by
      rw [hMem, upd_self, hvr]
    have mLp1 : (place s bt asize).mem (lp + 1) = bn - lp := by
      rw [hMem, upd_other _ _ d4a, upd_other _ _ d4b, upd_other _ _ d4c,
        upd_other _ _ d4d, upd_other _ _ d4e, upd_self, hi1]
    have mBn2 : (place s bt asize).mem (bn + 2) = lp - bn := by
      rw [hMem, upd_other _ _ d5a, upd_other _ _ d5b, upd_other _ _ d5c,
        upd_other _ _ d5d, upd_self, hi2]
    have mBn1 : (place s bt asize).mem (bn + 1) = ln - bn := by
      rw [hMem, upd_other _ _ d6a, upd_other _ _ d6b, upd_other _ _ d6c,
        upd_self, hi3]
    have mLn2 : (place s bt asize).mem (ln + 2) = bn - ln := by
      rw [hMem, upd_other _ _ d7a, upd_other _ _ d7b, upd_self, hi4]
    have tag1 := tag_used_props heven halt m1
    have tag2 := tag_free_props hrem_ev hrem_lt m3
    have hN : bt_next (place s bt asize) bt = bn := by
      unfold bt_next bt_size
      rw [m1, if_neg hNc]
      exact hNv
    have hF : bt_footer (place s bt asize) bn = fOld := by
      unfold bt_footer bt_size
      rw [m3]
      exact hFv
    have hL1 : lifo_next (place s bt asize) lp = bn := by
      unfold lifo_next lifo_get_next
      rw [mLp1, if_neg hz1]
      exact hsum1
    have hL2 : lifo_prev (place s bt asize) bn = lp := by
      unfold lifo_prev lifo_get_prev
      rw [mBn2, if_neg hz2]
      exact hsum2
    have hL3 : lifo_next (place s bt asize) bn = ln := by
      unfold lifo_next lifo_get_next
      rw [mBn1, if_neg hz3]
      exact hsum3
    have hL4 : lifo_prev (place s bt asize) ln = bn := by
      unfold lifo_prev lifo_get_prev
      rw [mLn2, if_neg hz4]
      exact hsum4
    have hFrame : ∀ x : Int, ¬x = bt → ¬x = bn - 1 → ¬x = lp + 1 → ¬x = bn + 2 →
        ¬x = bn + 1 → ¬x = ln + 2 → ¬x = bn → ¬x = fOld →
        (place s bt asize).mem x = s.mem x := by
      intro x h1 h2 h3 h4 h5 h6 h7 h8
      rw [hMem, upd_other _ _ h8, upd_other _ _ h7, upd_other _ _ h6,
        upd_other _ _ h5, upd_other _ _ h4, upd_other _ _ h3,
        upd_other _ _ h2, upd_other _ _ h1]
    exact ⟨m1, m2, tag1.1, tag1.2, m3, m4, tag2.1, tag2.2, hN, hF,
      hL1, hL2, hL3, hL4, hLast, hFrame, hBrk, hHS, hHS2⟩
  · -- consume branch
    intro hconsume
    obtain ⟨hnot, dEa, dEb, dEc, dEd, dEe, dEf,
      hbE1a, hbE1b, hbE2a, hbE2b, hzE1, hzE2, hsumE1, hsumE2, hEv⟩ :
        (¬16 ≤ csize - asize) ∧
        (¬bt = fOld) ∧
        (¬lp + 1 = fOld) ∧ (¬lp + 1 = bt) ∧ (¬lp + 1 = ln + 2) ∧
        (¬ln + 2 = fOld) ∧ (¬ln + 2 = bt) ∧
        (-2147483648 ≤ ln - lp) ∧ (ln - lp < 2147483648) ∧
        (-2147483648 ≤ lp - ln) ∧ (lp - ln < 2147483648) ∧
        (¬ln - lp = 0) ∧ (¬lp - ln = 0) ∧
        (lp + (ln - lp) = ln) ∧ (ln + (lp - ln) = lp) ∧
        (bt + ((csize : Int) + 1 - ((csize : Int) + 1) % 2) / 4 - 1 = fOld) := by
      omega
    have hE : bt_footer (bt_make (lifo_connect s lp ln) bt csize USED) bt = fOld := by
      unfold bt_footer bt_size
      rw [bt_make_mem, upd_self, hvc1]
      exact hEv
    have hplaceE : place s bt asize =
        { s with
          mem := upd (upd (upd (upd s.mem
            (lp + 1) (i32 (ln - lp)))
            (ln + 2) (i32 (lp - ln)))
            bt (i32n (csize ||| USED)))
            fOld (i32n (csize ||| USED)) } := by
      simp only [place]
      rw [hcs, hsubU, if_neg hnot, ← hlp, ← hln, hE]
      rfl
    have hMemE : (place s bt asize).mem =
        upd (upd (upd (upd s.mem
          (lp + 1) (i32 (ln - lp)))
          (ln + 2) (i32 (lp - ln)))
          bt (i32n (csize ||| USED)))
          fOld (i32n (csize ||| USED)) := by
      rw [hplaceE]
    have mE1 : (place s bt asize).mem bt = (csize : Int) + 1 := by
      rw [hMemE, upd_other _ _ dEa, upd_self, hvc1]
    have mE2 : (place s bt asize).mem fOld = (csize : Int) + 1 := by
      rw [hMemE, upd_self, hvc1]
    have mELp1 : (place s bt asize).mem (lp + 1) = ln - lp := by
      rw [hMemE, upd_other _ _ dEb, upd_other _ _ dEc, upd_other _ _ dEd,
        upd_self, i32_small hbE1a hbE1b]
    have mELn2 : (place s bt asize).mem (ln + 2) = lp - ln := by
      rw [hMemE, upd_other _ _ dEe, upd_other _ _ dEf, upd_self,
        i32_small hbE2a hbE2b]
    have tagE := tag_used_props hceven hclt mE1
    have hLE1 : lifo_next (place s bt asize) lp = ln := by
      unfold lifo_next lifo_get_next
      rw [mELp1, if_neg hzE1]
      exact hsumE1
    have hLE2 : lifo_prev (place s bt asize) ln = lp := by
      unfold lifo_prev lifo_get_prev
      rw [mELn2, if_neg hzE2]
      exact hsumE2
    have hLastE : (place s bt asize).bt_heap_last = s.bt_heap_last := by
      rw [hplaceE]
    have hFrameE : ∀ x : Int, ¬x = bt → ¬x = fOld → ¬x = lp + 1 → ¬x = ln + 2 →
        (place s bt asize).mem x = s.mem x := by
      intro x h1 h2 h3 h4
      rw [hMemE, upd_other _ _ h2, upd_other _ _ h1, upd_other _ _ h4, upd_other _ _ h3]
    have hBrkE : (place s bt asize).brk = s.brk := by
      rw [hplaceE]
    exact ⟨hLE1, hLE2, mE1, mE2, tagE.1, tagE.2, hLastE, hFrameE, hBrkE⟩

/-- C6 witness: placing a 16-byte allocation into the free 48-byte block at
word 44 of `stBestFit` splits it: block 44 becomes used with size 16, the
32-byte remainder at word 48 is free with footer at word 55 and takes the
old block's position between list neighbors 4 and 24. -/
theorem c6_place_spec_witness :
    (16 ≤ 48 - 16) ∧
    ((place stBestFit 44 16).mem 44 = ((16 : Nat) : Int) + 1 ∧
      (place stBestFit 44 16).mem (48 - 1) = ((16 : Nat) : Int) + 1 ∧
      toUSize (bt_size (place stBestFit 44 16) 44) = 16 ∧
      bt_used (place stBestFit 44 16) 44 ∧
      (place stBestFit 44 16).mem 48 = ((48 - 16 : Nat) : Int) ∧
      (place stBestFit 44 16).mem 55 = ((48 - 16 : Nat) : Int) ∧
      toUSize (bt_size (place stBestFit 44 16) 48) = 48 - 16 ∧
      bt_free (place stBestFit 44 16) 48 ∧
      bt_next (place stBestFit 44 16) 44 = 48 ∧
      bt_footer (place stBestFit 44 16) 48 = 55 ∧
      lifo_next (place stBestFit 44 16) 4 = 48 ∧
      lifo_prev (place stBestFit 44 16) 48 = 4 ∧
      lifo_next (place stBestFit 44 16) 48 = 24 ∧
      lifo_prev (place stBestFit 44 16) 24 = 48 ∧
      (place stBestFit 44 16).bt_heap_last =
        (if (44 : Int) = stBestFit.bt_heap_last then 48 else stBestFit.bt_heap_last) ∧
      (∀ x : Int, ¬x = 44 → ¬x = 48 - 1 → ¬x = 4 + 1 → ¬x = 48 + 2 →
        ¬x = 48 + 1 → ¬x = 24 + 2 → ¬x = 48 → ¬x = 55 →
        (place stBestFit 44 16).mem x = stBestFit.mem x) ∧
      (place stBestFit 44 16).brk = stBestFit.brk ∧
      (place stBestFit 44 16).bt_heap_start = stBestFit.bt_heap_start ∧
      (place stBestFit 44 16).heap_start = stBestFit.heap_start) :=
  ⟨by decide,
    (c6_place_spec stBestFit 44 4 24 48 55 16 48 (by decide) (by decide)
      (by decide) (by decide) (by decide) (by decide) (by decide) (by decide)
      (by decide) (by decide) (by decide) (by decide) (by decide) (by decide)
      (by decide) (by decide) (by decide) (by decide) (by decide)
      (by decide)).1 (by decide)⟩

set_option maxHeartbeats 3200000 in
/-- C7: when Resize(ptr, size) is called with non-null ptr and nonzero size,
the needed block size asize exceeds the current block size, the immediate
address-successor nb is free, and the combined size new_size covers asize,
realloc grows the block in place and returns ptr unchanged without growing
the heap: when the leftover reaches the minimum block size 16 it splits the
combined region exactly as place would, the remainder (header bn, footer
fNew) becoming a free block that takes the successor's free-list position
between lpn and lnn, with the topmost-block pointer moved to the remainder
exactly when the successor had been topmost; otherwise the whole combined
span is consumed in place, the successor is detached from the free list, and
the topmost-block pointer moves to the block when the successor had been
topmost. -/
theorem c7_realloc_grow_in_place (s : MM) (ptr current nb lpn lnn bn fNew : Int)
    (size fuel asize old_size nsz new_size : Nat)
    (hsz0 : ¬size = 0) (hptr0 : ¬ptr = 0) (hcur : current = ptr - 1)
    (hasz : realloc_asize size = asize)
    (hmemc : s.mem current = (old_size : Int) + 1)
    (hmemn : s.mem nb = (nsz : Int))
    (hnb : nb = current + ((old_size / 4 : Nat) : Int))
    (hnotlast : ¬current = s.bt_heap_last)
    (hnew : new_size = old_size + nsz)
    (hlpn : lpn = lifo_prev s nb) (hlnn : lnn = lifo_next s nb)
    (hbn : bn = current + ((asize / 4 : Nat) : Int))
    (hfNew : fNew = current + ((new_size / 4 : Nat) : Int) - 1)
    (hos16 : 16 ≤ old_size) (hosal : old_size % 16 = 0)
    (hns16 : 16 ≤ nsz) (hnsal : nsz % 16 = 0)
    (has16 : 16 ≤ asize) (hasal : asize % 16 = 0)
    (hgt : old_size < asize) (hle : asize ≤ new_size)
    (hnlt : new_size < 2147483648)
    (hbt0 : 0 < current) (hbtB : current + ((new_size / 4 : Nat) : Int) < 1073741824)
    (hlpn0 : 0 ≤ lpn) (hlpnB : lpn < 1073741824)
    (hlnn0 : 0 ≤ lnn) (hlnnB : lnn < 1073741824)
    (hlpnlnn1 : ¬lpn = lnn + 1) (hlpnlnnE : ¬lpn = lnn)
    (hlpnI : lpn + 2 < current ∨ current + ((new_size / 4 : Nat) : Int) ≤ lpn)
    (hlnnI : lnn + 2 < current ∨ current + ((new_size / 4 : Nat) : Int) ≤ lnn) :
    (16 ≤ new_size - asize →
      (realloc s ptr size fuel).1 = ptr ∧
      (realloc s ptr size fuel).2.mem current = (asize : Int) + 1 ∧
      (realloc s ptr size fuel).2.mem (bn - 1) = (asize : Int) + 1 ∧
      toUSize (bt_size (realloc s ptr size fuel).2 current) = asize ∧
      bt_used (realloc s ptr size fuel).2 current ∧
      (realloc s ptr size fuel).2.mem bn = ((new_size - asize : Nat) : Int) ∧
      (realloc s ptr size fuel).2.mem fNew = ((new_size - asize : Nat) : Int) ∧
      toUSize (bt_size (realloc s ptr size fuel).2 bn) = new_size - asize ∧
      bt_free (realloc s ptr size fuel).2 bn ∧
      bt_next (realloc s ptr size fuel).2 current = bn ∧
      lifo_next (realloc s ptr size fuel).2 lpn = bn ∧
      lifo_prev (realloc s ptr size fuel).2 bn = lpn ∧
      lifo_next (realloc s ptr size fuel).2 bn = lnn ∧
      lifo_prev (realloc s ptr size fuel).2 lnn = bn ∧
      (realloc s ptr size fuel).2.bt_heap_last =
        (if nb = s.bt_heap_last then bn else s.bt_heap_last) ∧
      (∀ x : Int, ¬x = current → ¬x = lpn + 1 → ¬x = bn + 2 → ¬x = bn + 1 →
        ¬x = lnn + 2 → ¬x = bn - 1 → ¬x = bn → ¬x = fNew →
        (realloc s ptr size fuel).2.mem x = s.mem x) ∧
      (realloc s ptr size fuel).2.brk = s.brk) ∧
    (new_size - asize < 16 →
      (realloc s ptr size fuel).1 = ptr ∧
      lifo_next (realloc s ptr size fuel).2 lpn = lnn ∧
      lifo_prev (realloc s ptr size fuel).2 lnn = lpn ∧
      (realloc s ptr size fuel).2.mem current = (new_size : Int) + 1 ∧
      (realloc s ptr size fuel).2.mem fNew = (new_size : Int) + 1 ∧
      toUSize (bt_size (realloc s ptr size fuel).2 current) = new_size ∧
      bt_used (realloc s ptr size fuel).2 current ∧
      (realloc s ptr size fuel).2.bt_heap_last =
        (if nb = s.bt_heap_last then current else s.bt_heap_last) ∧
      (∀ x : Int, ¬x = current → ¬x = fNew → ¬x = lpn + 1 → ¬x = lnn + 2 →
        (realloc s ptr size fuel).2.mem x = s.mem x) ∧
      (realloc s ptr size fuel).2.brk = s.brk) := by
  have hoseven : old_size % 2 = 0 := by omega
  have hoslt : old_size < 2147483648 := by omega
  have hnseven : nsz % 2 = 0 := by omega
  have hnslt : nsz < 2147483648 := by omega
  have haseven : asize % 2 = 0 := by omega
  have haslt : asize < 2147483648 := by omega
  have hnweven : new_size % 2 = 0 := by omega
  have tagc := tag_used_props hoseven hoslt hmemc
  have tagn := tag_free_props hnseven hnslt hmemn
  have hplus : (old_size + nsz) % M64 = new_size := by unfold M64; omega
  have hsubU2 : subU new_size asize = new_size - asize := by unfold subU M64; omega
  have hv1 : i32n (asize ||| USED) = (asize : Int) + 1 := by
    unfold USED
    rw [lor_one_of_even haseven, i32n_small (by omega)]
    omega
  have hvN : i32n (new_size ||| USED) = (new_size : Int) + 1 := by
    unfold USED
    rw [lor_one_of_even hnweven, i32n_small (by omega)]
    omega
  have hvr : i32n ((new_size - asize) ||| FREE) = ((new_size - asize : Nat) : Int) := by
    unfold FREE
    rw [lor_zero_nat, i32n_small (by omega)]
  have hbf : bt_fromptr ptr = current := by unfold bt_fromptr; omega
  have hbtn : bt_next s current = nb := by
    unfold bt_next bt_size
    rw [hmemc]
    rw [if_neg (by omega)]
    omega
  have hne : ¬realloc_asize size = old_size := by omega
  have hnlt2 : ¬realloc_asize size < old_size := by omega
  have hnb0 : ¬nb = 0 := by omega
  constructor
  · -- grow and split
    intro hsplit
    obtain ⟨d1a, d1b, d1c, d1d, d1e, d1f, d1g,
      d2a, d2b, d3a,
      d4a, d4b, d4c, d4d, d4e, d4f,
      d5a, d5b, d5c, d5d, d5e,
      d6a, d6b, d6c, d6d,
      d7a, d7b, d7c,
      dW2a, dW3a, dW3b, dW3c,
      hb1a, hb1b, hb2a, hb2b, hb3a, hb3b, hb4a, hb4b,
      hz1, hz2, hz3, hz4, hsum1, hsum2, hsum3, hsum4,
      hNc, hW1v, hW4v, hW5v, hrem_ev, hrem_lt⟩ :
        (¬current = fNew) ∧ (¬current = bn) ∧ (¬current = bn - 1) ∧
        (¬current = lnn + 2) ∧ (¬current = bn + 1) ∧ (¬current = bn + 2) ∧
        (¬current = lpn + 1) ∧
        (¬bn - 1 = fNew) ∧ (¬bn - 1 = bn) ∧
        (¬bn = fNew) ∧
        (¬lpn + 1 = fNew) ∧ (¬lpn + 1 = bn) ∧ (¬lpn + 1 = bn - 1) ∧
        (¬lpn + 1 = lnn + 2) ∧ (¬lpn + 1 = bn + 1) ∧ (¬lpn + 1 = bn + 2) ∧
        (¬bn + 2 = fNew) ∧ (¬bn + 2 = bn) ∧ (¬bn + 2 = bn - 1) ∧
        (¬bn + 2 = lnn + 2) ∧ (¬bn + 2 = bn + 1) ∧
        (¬bn + 1 = fNew) ∧ (¬bn + 1 = bn) ∧ (¬bn + 1 = bn - 1) ∧
        (¬bn + 1 = lnn + 2) ∧
        (¬lnn + 2 = fNew) ∧ (¬lnn + 2 = bn) ∧ (¬lnn + 2 = bn - 1) ∧
        (¬nb + 2 = current) ∧
        (¬nb + 1 = bn + 2) ∧ (¬nb + 1 = lpn + 1) ∧ (¬nb + 1 = current) ∧
        (-2147483648 ≤ bn - lpn) ∧ (bn - lpn < 2147483648) ∧
        (-2147483648 ≤ lpn - bn) ∧ (lpn - bn < 2147483648) ∧
        (-2147483648 ≤ lnn - bn) ∧ (lnn - bn < 2147483648) ∧
        (-2147483648 ≤ bn - lnn) ∧ (bn - lnn < 2147483648) ∧
        (¬bn - lpn = 0) ∧ (¬lpn - bn = 0) ∧ (¬lnn - bn = 0) ∧ (¬bn - lnn = 0) ∧
        (lpn + (bn - lpn) = bn) ∧ (bn + (lpn - bn) = lpn) ∧
        (bn + (lnn - bn) = lnn) ∧ (lnn + (bn - lnn) = bn) ∧
        (¬(asize : Int) + 1 - ((asize : Int) + 1) % 2 = 0) ∧
        (current + ((asize : Int) + 1 - ((asize : Int) + 1) % 2) / 4 = bn) ∧
        (current + ((asize : Int) + 1 - ((asize : Int) + 1) % 2) / 4 - 1 = bn - 1) ∧
        (bn + (((new_size - asize : Nat) : Int) -
          ((new_size - asize : Nat) : Int) % 2) / 4 - 1 = fNew) ∧
        ((new_size - asize) % 2 = 0) ∧ (new_size - asize < 2147483648) := by omega
    have hi1 : i32 (bn - lpn) = bn - lpn := i32_small hb1a hb1b
    have hi2 : i32 (lpn - bn) = lpn - bn := i32_small hb2a hb2b
    have hi3 : i32 (lnn - bn) = lnn - bn := i32_small hb3a hb3b
    have hi4 : i32 (bn - lnn) = bn - lnn := i32_small hb4a hb4b
    have hW1 : bt_next (bt_make s current asize USED) current = bn := by
      unfold bt_next bt_size
      rw [bt_make_mem, upd_self, hv1]
      rw [if_neg hNc]
      exact hW1v
    have hW2 : lifo_prev (bt_make s current asize USED) nb = lpn := by
      rw [hlpn]
      unfold lifo_prev lifo_get_prev
      rw [bt_make_mem, upd_other _ _ dW2a]
    have hW3 : lifo_next (lifo_connect (bt_make s current asize USED) lpn bn) nb = lnn := by
      rw [hlnn]
      unfold lifo_next lifo_get_next
      rw [lifo_connect_mem, bt_make_mem]
      rw [upd_other _ _ dW3a, upd_other _ _ dW3b, upd_other _ _ dW3c]
    have hW4 : bt_footer (lifo_connect (lifo_connect (bt_make s current asize USED) lpn bn) bn lnn) current = bn - 1 := by
      unfold bt_footer bt_size
      rw [lifo_connect_mem, lifo_connect_mem, bt_make_mem]
      rw [upd_other _ _ d1d, upd_other _ _ d1e, upd_other _ _ d1f,
        upd_other _ _ d1g, upd_self, hv1]
      exact hW4v
    have hW5 : bt_footer (bt_make (bt_make (lifo_connect (lifo_connect (bt_make s current asize USED) lpn bn) bn lnn) (bn - 1) asize USED) bn (new_size - asize) FREE) bn = fNew := by
      unfold bt_footer bt_size
      rw [bt_make_mem, upd_self, hvr]
      exact hW5v
    have hreal : realloc s ptr size fuel =
        (ptr,
          if nb = s.bt_heap_last then
            { s with
              mem := upd (upd (upd (upd (upd (upd (upd (upd s.mem
                current (i32n (asize ||| USED)))
                (lpn + 1) (i32 (bn - lpn)))
                (bn + 2) (i32 (lpn - bn)))
                (bn + 1) (i32 (lnn - bn)))
                (lnn + 2) (i32 (bn - lnn)))
                (bn - 1) (i32n (asize ||| USED)))
                bn (i32n ((new_size - asize) ||| FREE)))
                fNew (i32n ((new_size - asize) ||| FREE)),
              bt_heap_last := bn }
          else
            { s with
              mem := upd (upd (upd (upd (upd (upd (upd (upd s.mem
                current (i32n (asize ||| USED)))
                (lpn + 1) (i32 (bn - lpn)))
                (bn + 2) (i32 (lpn - bn)))
                (bn + 1) (i32 (lnn - bn)))
                (lnn + 2) (i32 (bn - lnn)))
                (bn - 1) (i32n (asize ||| USED)))
                bn (i32n ((new_size - asize) ||| FREE)))
                fNew (i32n ((new_size - asize) ||| FREE)) }) := by
      simp only [realloc]
      rw [if_neg hsz0, if_neg hptr0, hbf, if_pos hnotlast, hbtn,
        if_pos tagn.2, tagc.1, tagn.1, hplus,
        show ((nb, new_size) : Int × Nat).1 = nb from rfl,
        show ((nb, new_size) : Int × Nat).2 = new_size from rfl,
        hasz, if_neg (hasz ▸ hne), if_neg (hasz ▸ hnlt2),
        if_pos (⟨hnb0, hle⟩ : ¬nb = 0 ∧ asize ≤ new_size),
        hsubU2, if_pos hsplit,
        hW1, hW2, hW3, hW4, hW5]
      rfl
    have hMem : (realloc s ptr size fuel).2.mem =
        upd (upd (upd (upd (upd (upd (upd (upd s.mem
          current (i32n (asize ||| USED)))
          (lpn + 1) (i32 (bn - lpn)))
          (bn + 2) (i32 (lpn - bn)))
          (bn + 1) (i32 (lnn - bn)))
          (lnn + 2) (i32 (bn - lnn)))
          (bn - 1) (i32n (asize ||| USED)))
          bn (i32n ((new_size - asize) ||| FREE)))
          fNew (i32n ((new_size - asize) ||| FREE)) := by
      rw [hreal]
      split_ifs <;> rfl
    have hRet : (realloc s ptr size fuel).1 = ptr := by
      rw [hreal]
    have hLast : (realloc s ptr size fuel).2.bt_heap_last =
        (if nb = s.bt_heap_last then bn else s.bt_heap_last) := by
      rw [hreal]
      split_ifs <;> rfl
    have hBrk : (realloc s ptr size fuel).2.brk = s.brk := by
      rw [hreal]; split_ifs <;> rfl
    clear hreal
    have m1 : (realloc s ptr size fuel).2.mem current = (asize : Int) + 1 := by
      rw [hMem, upd_other _ _ d1a, upd_other _ _ d1b, upd_other _ _ d1c,
        upd_other _ _ d1d, upd_other _ _ d1e, upd_other _ _ d1f,
        upd_other _ _ d1g, upd_self, hv1]
    have m2 : (realloc s ptr size fuel).2.mem (bn - 1) = (asize : Int) + 1 := by
      rw [hMem, upd_other _ _ d2a, upd_other _ _ d2b, upd_self, hv1]
    have m3 : (realloc s ptr size fuel).2.mem bn = ((new_size - asize : Nat) : Int) := by
      rw [hMem, upd_other _ _ d3a, upd_self, hvr]
    have m4 : (realloc s ptr size fuel).2.mem fNew = ((new_size - asize : Nat) : Int) := by
      rw [hMem, upd_self, hvr]
    have mLp1 : (realloc s ptr size fuel).2.mem (lpn + 1) = bn - lpn := by
      rw [hMem, upd_other _ _ d4a, upd_other _ _ d4b, upd_other _ _ d4c,
        upd_other _ _ d4d, upd_other _ _ d4e, upd_other _ _ d4f, upd_self, hi1]
    have mBn2 : (realloc s ptr size fuel).2.mem (bn + 2) = lpn - bn := by
      rw [hMem, upd_other _ _ d5a, upd_other _ _ d5b, upd_other _ _ d5c,
        upd_other _ _ d5d, upd_other _ _ d5e, upd_self, hi2]
    have mBn1 : (realloc s ptr size fuel).2.mem (bn + 1) = lnn - bn := by
      rw [hMem, upd_other _ _ d6a, upd_other _ _ d6b, upd_other _ _ d6c,
        upd_other _ _ d6d, upd_self, hi3]
    have mLn2 : (realloc s ptr size fuel).2.mem (lnn + 2) = bn - lnn := by
      rw [hMem, upd_other _ _ d7a, upd_other _ _ d7b, upd_other _ _ d7c,
        upd_self, hi4]
    have tag1 := tag_used_props haseven haslt m1
    have tag2 := tag_free_props hrem_ev hrem_lt m3
    have hN : bt_next (realloc s ptr size fuel).2 current = bn := by
      unfold bt_next bt_size
      rw [m1, if_neg hNc]
      exact hW1v
    have hL1 : lifo_next (realloc s ptr size fuel).2 lpn = bn := by
      unfold lifo_next lifo_get_next
      rw [mLp1, if_neg hz1]
      exact hsum1
    have hL2 : lifo_prev (realloc s ptr size fuel).2 bn = lpn := by
      unfold lifo_prev lifo_get_prev
      rw [mBn2, if_neg hz2]
      exact hsum2
    have hL3 : lifo_next (realloc s ptr size fuel).2 bn = lnn := by
      unfold lifo_next lifo_get_next
      rw [mBn1, if_neg hz3]
      exact hsum3
    have hL4 : lifo_prev (realloc s ptr size fuel).2 lnn = bn := by
      unfold lifo_prev lifo_get_prev
      rw [mLn2, if_neg hz4]
      exact hsum4
    have hFrame : ∀ x : Int, ¬x = current → ¬x = lpn + 1 → ¬x = bn + 2 →
        ¬x = bn + 1 → ¬x = lnn + 2 → ¬x = bn - 1 → ¬x = bn → ¬x = fNew →
        (realloc s ptr size fuel).2.mem x = s.mem x := by
      intro x h1 h2 h3 h4 h5 h6 h7 h8
      rw [hMem, upd_other _ _ h8, upd_other _ _ h7, upd_other _ _ h6,
        upd_other _ _ h5, upd_other _ _ h4, upd_other _ _ h3,
        upd_other _ _ h2, upd_other _ _ h1]
    exact ⟨hRet, m1, m2, tag1.1, tag1.2, m3, m4, tag2.1, tag2.2, hN,
      hL1, hL2, hL3, hL4, hLast, hFrame, hBrk⟩
  · -- grow and consume whole span
    intro hconsume
    obtain ⟨hnot, dEa, dEb, dEc, dEd, dEe, dEf,
      hbE1a, hbE1b, hbE2a, hbE2b, hzE1, hzE2, hsumE1, hsumE2, hEv⟩ :
        (¬16 ≤ new_size - asize) ∧
        (¬current = fNew) ∧
        (¬lpn + 1 = fNew) ∧ (¬lpn + 1 = current) ∧ (¬lpn + 1 = lnn + 2) ∧
        (¬lnn + 2 = fNew) ∧ (¬lnn + 2 = current) ∧
        (-2147483648 ≤ lnn - lpn) ∧ (lnn - lpn < 2147483648) ∧
        (-2147483648 ≤ lpn - lnn) ∧ (lpn - lnn < 2147483648) ∧
        (¬lnn - lpn = 0) ∧ (¬lpn - lnn = 0) ∧
        (lpn + (lnn - lpn) = lnn) ∧ (lnn + (lpn - lnn) = lpn) ∧
        (current + ((new_size : Int) + 1 - ((new_size : Int) + 1) % 2) / 4 - 1 = fNew) := by
      omega
    have hWE1 : bt_footer (bt_make (lifo_connect s lpn lnn) current new_size USED) current = fNew := by
      unfold bt_footer bt_size
      rw [bt_make_mem, upd_self, hvN]
      exact hEv
    have hrealE : realloc s ptr size fuel =
        (ptr,
          if nb = s.bt_heap_last then
            { s with
              mem := upd (upd (upd (upd s.mem
                (lpn + 1) (i32 (lnn - lpn)))
                (lnn + 2) (i32 (lpn - lnn)))
                current (i32n (new_size ||| USED)))
                fNew (i32n (new_size ||| USED)),
              bt_heap_last := current }
          else
            { s with
              mem := upd (upd (upd (upd s.mem
                (lpn + 1) (i32 (lnn - lpn)))
                (lnn + 2) (i32 (lpn - lnn)))
                current (i32n (new_size ||| USED)))
                fNew (i32n (new_size ||| USED)) }) := by
      simp only [realloc]
      rw [if_neg hsz0, if_neg hptr0, hbf, if_pos hnotlast, hbtn,
        if_pos tagn.2, tagc.1, tagn.1, hplus,
        show ((nb, new_size) : Int × Nat).1 = nb from rfl,
        show ((nb, new_size) : Int × Nat).2 = new_size from rfl,
        hasz, if_neg (hasz ▸ hne), if_neg (hasz ▸ hnlt2),
        if_pos (⟨hnb0, hle⟩ : ¬nb = 0 ∧ asize ≤ new_size),
        hsubU2, if_neg hnot, ← hlpn, ← hlnn, hWE1]
      rfl
    have hMemE : (realloc s ptr size fuel).2.mem =
        upd (upd (upd (upd s.mem
          (lpn + 1) (i32 (lnn - lpn)))
          (lnn + 2) (i32 (lpn - lnn)))
          current (i32n (new_size ||| USED)))
          fNew (i32n (new_size ||| USED)) := by
      rw [hrealE]
      split_ifs <;> rfl
    have hRetE : (realloc s ptr size fuel).1 = ptr := by
      rw [hrealE]
    have hLastE : (realloc s ptr size fuel).2.bt_heap_last =
        (if nb = s.bt_heap_last then current else s.bt_heap_last) := by
      rw [hrealE]
      split_ifs <;> rfl
    have hBrkE : (realloc s ptr size fuel).2.brk = s.brk := by
      rw [hrealE]; split_ifs <;> rfl
    clear hrealE
    have mE1 : (realloc s ptr size fuel).2.mem current = (new_size : Int) + 1 := by
      rw [hMemE, upd_other _ _ dEa, upd_self, hvN]
    have mE2 : (realloc s ptr size fuel).2.mem fNew = (new_size : Int) + 1 := by
      rw [hMemE, upd_self, hvN]
    have mELp1 : (realloc s ptr size fuel).2.mem (lpn + 1) = lnn - lpn := by
      rw [hMemE, upd_other _ _ dEb, upd_other _ _ dEc, upd_other _ _ dEd,
        upd_self, i32_small hbE1a hbE1b]
    have mELn2 : (realloc s ptr size fuel).2.mem (lnn + 2) = lpn - lnn := by
      rw [hMemE, upd_other _ _ dEe, upd_other _ _ dEf, upd_self,
        i32_small hbE2a hbE2b]
    have tagE := tag_used_props hnweven (by omega) mE1
    have hLE1 : lifo_next (realloc s ptr size fuel).2 lpn = lnn := by
      unfold lifo_next lifo_get_next
      rw [mELp1, if_neg hzE1]
      exact hsumE1
    have hLE2 : lifo_prev (realloc s ptr size fuel).2 lnn = lpn := by
      unfold lifo_prev lifo_get_prev
      rw [mELn2, if_neg hzE2]
      exact hsumE2
    have hFrameE : ∀ x : Int, ¬x = current → ¬x = fNew → ¬x = lpn + 1 →
        ¬x = lnn + 2 → (realloc s ptr size fuel).2.mem x = s.mem x := by
      intro x h1 h2 h3 h4
      rw [hMemE, upd_other _ _ h2, upd_other _ _ h1, upd_other _ _ h4,
        upd_other _ _ h3]
    exact ⟨hRetE, hLE1, hLE2, mE1, mE2, tagE.1, tagE.2, hLastE, hFrameE, hBrkE⟩

/-- C2, evaluated at the failing input.  Running, from a fresh heap,
mm_init; p = malloc(40); q = malloc(8); z = malloc(8); free(q);
realloc(p, 8), the final Resize shrinks p's block in place and returns a
32-byte remainder (header word 16) to the free list without coalescing, so
the remainder and the previously freed 16-byte block q (header word 24) are
address-adjacent and both free when control returns to the caller —
contradicting the claimed no-adjacent-free invariant. -/
theorem c2_adjacent_free_blocks_after_shrink :
    runShrink.1 = 13 ∧
    bt_free runShrink.2 16 ∧ toUSize (bt_size runShrink.2 16) = 32 ∧
    bt_next runShrink.2 16 = 24 ∧
    bt_free runShrink.2 24 ∧ toUSize (bt_size runShrink.2 24) = 16 ∧
    bt_used runShrink.2 12 ∧ bt_used runShrink.2 28 ∧
    runShrink.2.bt_heap_last = 28 := by
  refine ⟨by decide, by decide, by decide, by decide, by decide, by decide,
    by decide, by decide, by decide⟩

end MMc
